import Mathlib

/-!
# go-workers2 producer: a shallow embedding of `producer.go`

The Go file reads the wall clock, reads a random source, serialises a struct
with `encoding/json` and talks to a store through an interface.  Each of these
effects is made explicit:

* clock readings and the outcome of the random read are inputs (`Env`);
* the store is a record of three state-passing operations (`Store`);
* `json.Marshal` is split into the part fixed by the struct tags of
  `EnqueueData` / `EnqueueOptions` (`fields`) and the encoder of
  `encoding/json`, which is a parameter of the enqueue operations;
  `jsonEncoder` is that encoder up to the spelling of the JSON text, and
  `Unmarshal` the decoder on the same footing.
-/

namespace Workers

/-! ## Basic data -/

/-- Go `error` values; `none : Option Error` is the `nil` error. -/
abbrev Error := String

/-- A Go `byte`. -/
abbrev Byte := Fin 256

/-- Values of Go `float64` as far as `producer.go` looks at them: the three
non-finite values and the finite ones, carried by their exact value.  The sign
of zero is not represented; the code only compares (`<`), adds and tests
against zero (`omitempty`).  A finite member stands for a `float64` when its
value is one `float64` can hold (`IsValue`); sums are rounded to such values. -/
inductive Float64 where
  | nan
  | negInf
  | finite (q : ℚ)
  | posInf
  deriving DecidableEq

namespace Float64

/-- Go `x < y` on `float64` (false as soon as one side is NaN). -/
def lt : Float64 → Float64 → Bool
  | nan, _ => false
  | _, nan => false
  | negInf, negInf => false
  | negInf, _ => true
  | finite _, negInf => false
  | finite a, finite b => decide (a < b)
  | finite _, posInf => true
  | posInf, _ => false

/-- Go `x >= y` on `float64` (false as soon as one side is NaN). -/
def ge : Float64 → Float64 → Bool
  | nan, _ => false
  | _, nan => false
  | negInf, negInf => true
  | negInf, _ => false
  | finite _, negInf => true
  | finite a, finite b => decide (b ≤ a)
  | finite _, posInf => false
  | posInf, _ => true

/-- The position of the highest set bit of `n` (`0` for `n ≤ 1`), found in at
most `fuel` halvings. -/
def bitLog (fuel n : Nat) : Nat :=
  match fuel with
  | 0 => 0
  | fuel + 1 => if n < 2 then 0 else bitLog fuel (n / 2) + 1

/-- The integer `⌊log₂ (n / d)⌋` for positive `n` and `d`. -/
def floorLog2 (n d : Nat) : Int :=
  let k : Int := (bitLog n n : Int) - (bitLog d d : Int)
  if d * 2 ^ k.toNat ≤ n * 2 ^ (-k).toNat then k else k - 1

/-- The integer nearest to `n / d`, the even one of the two when `n / d` lies
half way between them. -/
def roundHalfEven (n d : Nat) : Nat :=
  let q := n / d
  let r := n % d
  if 2 * r < d then q
  else if d < 2 * r then q + 1
  else if q % 2 = 0 then q else q + 1

/-- The `float64` nearest to the positive rational `n / d` (IEEE 754 binary64,
round to nearest, ties to even: 53 significant bits, least exponent `-1022`,
gradual underflow), or `none` when rounding passes the largest finite
`float64`. -/
def roundPos (n d : Nat) : Option ℚ :=
  let e : Int := max (floorLog2 n d) (-1022)
  let p : Int := e - 52
  let m := roundHalfEven (n * 2 ^ (-p).toNat) (d * 2 ^ p.toNat)
  let v : ℚ := (m * 2 ^ p.toNat : Nat) / (2 ^ (-p).toNat : Nat)
  if v < 2 ^ 1024 then some v else none

/-- Rounding of an exact result to `float64`: the nearest value, an infinity on
overflow. -/
def ofRat (q : ℚ) : Float64 :=
  if q = 0 then finite 0
  else
    match roundPos q.num.natAbs q.den with
    | some v => finite (if q < 0 then -v else v)
    | none => if q < 0 then negInf else posInf

/-- Go `x + y` on `float64`: the exact sum of two finite operands is rounded
to the nearest `float64`. -/
def add : Float64 → Float64 → Float64
  | nan, _ => nan
  | _, nan => nan
  | negInf, posInf => nan
  | posInf, negInf => nan
  | negInf, _ => negInf
  | _, negInf => negInf
  | posInf, _ => posInf
  | _, posInf => posInf
  | finite a, finite b => ofRat (a + b)

/-- The value is one a `float64` holds: rounding leaves a finite member as it
is. -/
def IsValue : Float64 → Prop
  | finite q => ofRat q = finite q
  | _ => True

/-- Neither NaN nor an infinity. -/
def isFinite : Float64 → Bool
  | finite _ => true
  | _ => false

/-- Go `x == 0` on `float64`: the emptiness test `omitempty` applies to a float. -/
def isZero : Float64 → Bool
  | finite q => decide (q = 0)
  | _ => false

/-- The largest `k` with `10 ^ k ≤ n` (`0` for `n < 10`), found in at most
`fuel` divisions. -/
def decLog (fuel n : Nat) : Nat :=
  match fuel with
  | 0 => 0
  | fuel + 1 => if n < 10 then 0 else decLog fuel (n / 10) + 1

/-- The integer `⌊log₁₀ (n / d)⌋` for positive `n` and `d`. -/
def floorLog10 (n d : Nat) : Int :=
  let k : Int := (decLog n n : Int) - (decLog d d : Int)
  if d * 10 ^ k.toNat ≤ n * 10 ^ (-k).toNat then k else k - 1

/-- The two decimals with `digits` significant digits next to the positive
rational `n / d`, the nearer one first. -/
def decimalNeighbours (n d digits : Nat) : List ℚ :=
  let p : Int := floorLog10 n d - digits + 1
  let num := n * 10 ^ (-p).toNat
  let den := d * 10 ^ p.toNat
  let lo := num / den
  let r := num % den
  let below : ℚ := (lo * 10 ^ p.toNat : Nat) / (10 ^ (-p).toNat : Nat)
  let above : ℚ := ((lo + 1) * 10 ^ p.toNat : Nat) / (10 ^ (-p).toNat : Nat)
  if 2 * r < den ∨ (2 * r = den ∧ lo % 2 = 0) then [below, above] else [above, below]

/-- The decimal `strconv` writes for the non-zero `float64` value `q` at
precision `-1`: the one with the fewest significant digits that parses back to
`q`, the nearest to `q` among those. -/
def shortest (q : ℚ) : ℚ :=
  let sign : ℚ := if q < 0 then -1 else 1
  let candidates := (List.range 17).flatMap
    (fun i => decimalNeighbours q.num.natAbs q.den (i + 1))
  match candidates.find? (fun c => decide (ofRat (sign * c) = finite q)) with
  | some c => sign * c
  | none => q

end Float64

/-! ## Identifier generator -/

/-- One lowercase hexadecimal digit, as printed by the `%x` verb. -/
def hexDigit (n : Nat) : Char :=
  if n < 10 then Char.ofNat (48 + n) else Char.ofNat (87 + n)

/-- Two digits per byte, high nibble first. -/
def hexByte (b : Byte) : List Char :=
  [hexDigit (b.val / 16), hexDigit (b.val % 16)]

/-- Go `fmt.Sprintf("%x", b)` for a byte slice `b`. -/
def sprintfHex (b : List Byte) : String :=
  String.mk (b.flatMap hexByte)

/-- Go `generateJid`.  The argument is the outcome of
`io.ReadFull(rand.Reader, b)` on the 12-byte buffer `b`: an error, or the
bytes the buffer holds afterwards. -/
def generateJid (read : Except Error (List Byte)) : String :=
  match read with
  | .error _ => ""
  | .ok b => sprintfHex b

/-- The value of a lowercase hexadecimal digit; `none` for any other character. -/
def hexVal (c : Char) : Option Nat :=
  if 48 ≤ c.toNat ∧ c.toNat ≤ 57 then some (c.toNat - 48)
  else if 97 ≤ c.toNat ∧ c.toNat ≤ 102 then some (c.toNat - 87)
  else none

/-- Reads a string of lowercase hexadecimal digit pairs back into bytes. -/
def decodeHex : List Char → Option (List Byte)
  | [] => some []
  | [_] => none
  | hi :: lo :: rest =>
    match hexVal hi, hexVal lo, decodeHex rest with
    | some h, some l, some bs => some (Fin.ofNat (16 * h + l) :: bs)
    | _, _, _ => none

/-- The characters allowed in an identifier. -/
def isLowerHex (c : Char) : Bool :=
  (hexVal c).isSome

/-! ## The job envelope -/

/-- Go `EnqueueOptions`. -/
structure EnqueueOptions where
  /-- Wire name `retry_count`, omitted when empty. -/
  RetryCount : Int
  /-- Wire name `retry`, omitted when empty. -/
  Retry : Bool
  /-- Wire name `at`, omitted when empty. -/
  At : Float64
  deriving DecidableEq

/-- Go `EnqueueData`; `α` is the dynamic value held by `Args interface{}`.
`EnqueueOptions` is embedded, so its fields are promoted. -/
structure EnqueueData (α : Type) extends EnqueueOptions where
  /-- Wire name `queue`, omitted when empty. -/
  Queue : String
  /-- Wire name `class`. -/
  Class : String
  /-- Wire name `args`. -/
  Args : α
  /-- Wire name `jid`. -/
  Jid : String
  /-- Wire name `enqueued_at`. -/
  EnqueuedAt : Float64
  deriving DecidableEq

/-- The value of one member of the serialised object, by the Go type of the
field it comes from. -/
inductive Value (α : Type) where
  | str (s : String)
  | int (n : Int)
  | bool (b : Bool)
  | num (x : Float64)
  | any (a : α)
  deriving DecidableEq

/-- A JSON object seen as its ordered list of top-level members. -/
abbrev Wire (α : Type) := List (String × Value α)

/-- The members `encoding/json` emits for an `EnqueueData`, read off the
struct tags: declaration order, the embedded `EnqueueOptions` promoted to the
top level, and `omitempty` members dropped when the field is empty (`""`,
`0`, `false`, `0.0`). -/
def fields {α : Type} (d : EnqueueData α) : Wire α :=
  (if d.Queue = "" then [] else [("queue", Value.str d.Queue)]) ++
  [("class", Value.str d.Class), ("args", Value.any d.Args),
   ("jid", Value.str d.Jid), ("enqueued_at", Value.num d.EnqueuedAt)] ++
  (if d.RetryCount = 0 then [] else [("retry_count", Value.int d.RetryCount)]) ++
  (if d.Retry = false then [] else [("retry", Value.bool d.Retry)]) ++
  (if d.At.isZero then [] else [("at", Value.num d.At)])

/-- The text encoder of `encoding/json` for an object with the given members:
it yields the payload or fails (unsupported value, failing marshaller of the
arguments).  `P` is the type of payloads, `string` in Go. -/
abbrev Encoder (α P : Type) := Wire α → Except Error P

/-- Go `json.Marshal(data)` for `data : EnqueueData`. -/
def Marshal {α P : Type} (enc : Encoder α P) (d : EnqueueData α) : Except Error P :=
  enc (fields d)

/-- The value of member `k`, if the object has one. -/
def member {α : Type} (k : String) (w : Wire α) : Option (Value α) :=
  List.lookup k w

/-- Go zero value of `EnqueueData`, with `Args` the nil interface. -/
def zeroData {α : Type} (nil : α) : EnqueueData α :=
  { RetryCount := 0, Retry := false, At := Float64.finite 0,
    Queue := "", Class := "", Args := nil, Jid := "", EnqueuedAt := Float64.finite 0 }

/-! ## The store interface -/

/-- The three operations `EnqueueWithOptions` calls on `p.opts.store`, in
state-passing style: each returns its Go `error` (`none` for `nil`) and the
store's next state. -/
structure Store (σ P : Type) where
  /-- Go `store.CreateQueue(queue)`. -/
  CreateQueue : String → σ → Option Error × σ
  /-- Go `store.EnqueueMessageNow(queue, message)`. -/
  EnqueueMessageNow : String → P → σ → Option Error × σ
  /-- Go `store.EnqueueScheduledMessage(priority, message)`. -/
  EnqueueScheduledMessage : Float64 → P → σ → Option Error × σ

/-- One call received by a store. -/
inductive Call (P : Type) where
  | CreateQueue (queue : String)
  | EnqueueMessageNow (queue : String) (payload : P)
  | EnqueueScheduledMessage (score : Float64) (payload : P)
  deriving DecidableEq

/-- A call together with the error it returned. -/
abbrev Entry (P : Type) := Call P × Option Error

/-- The same store, additionally keeping the log of the calls it received,
oldest first, each with the error it returned. -/
def Store.traced {σ P : Type} (s : Store σ P) : Store (σ × List (Entry P)) P where
  CreateQueue := fun q st =>
    let r := s.CreateQueue q st.1
    (r.1, (r.2, st.2 ++ [(Call.CreateQueue q, r.1)]))
  EnqueueMessageNow := fun q p st =>
    let r := s.EnqueueMessageNow q p st.1
    (r.1, (r.2, st.2 ++ [(Call.EnqueueMessageNow q p, r.1)]))
  EnqueueScheduledMessage := fun t p st =>
    let r := s.EnqueueScheduledMessage t p st.1
    (r.1, (r.2, st.2 ++ [(Call.EnqueueScheduledMessage t p, r.1)]))

/-- A store none of whose operations ever fails. -/
def Store.Working {σ P : Type} (s : Store σ P) : Prop :=
  (∀ q st, (s.CreateQueue q st).1 = none) ∧
  (∀ q p st, (s.EnqueueMessageNow q p st).1 = none) ∧
  (∀ t p st, (s.EnqueueScheduledMessage t p st).1 = none)

/-- A stateless test double: each operation returns a fixed error value. -/
def fixedStore (P : Type) (createQueue enqueueNow enqueueScheduled : Option Error) :
    Store Unit P where
  CreateQueue := fun _ st => (createQueue, st)
  EnqueueMessageNow := fun _ _ st => (enqueueNow, st)
  EnqueueScheduledMessage := fun _ _ st => (enqueueScheduled, st)

/-! ## The enqueue engine -/

/-- What one call of `EnqueueWithOptions` reads from its surroundings. -/
structure Env where
  /-- The value `nowToSecondsWithNanoPrecision()` returns inside the call. -/
  now : Float64
  /-- The outcome of `io.ReadFull(rand.Reader, b)` inside `generateJid`. -/
  read : Except Error (List Byte)

/-- The record `EnqueueWithOptions` builds before serialising it. -/
def envelope {α : Type} (env : Env) (queue cls : String) (args : α)
    (opts : EnqueueOptions) : EnqueueData α :=
  { toEnqueueOptions := opts
    Queue := queue
    Class := cls
    Args := args
    Jid := generateJid env.read
    EnqueuedAt := env.now }

/-- Go `(*Producer).EnqueueWithOptions`, with `store` standing for
`p.opts.store`.  Returns the pair `(string, error)` and the store's state. -/
def EnqueueWithOptions {σ α P : Type} (store : Store σ P) (enc : Encoder α P) (env : Env)
    (queue cls : String) (args : α) (opts : EnqueueOptions) (st : σ) :
    (String × Option Error) × σ :=
  let now := env.now
  let data : EnqueueData α := envelope env queue cls args opts
  match Marshal enc data with
  | .error err => (("", some err), st)
  | .ok bytes =>
    if Float64.lt now opts.At then
      let r := store.EnqueueScheduledMessage data.At bytes st
      ((data.Jid, r.1), r.2)
    else
      match store.CreateQueue queue st with
      | (some err, st1) => (("", some err), st1)
      | (none, st1) =>
        match store.EnqueueMessageNow queue bytes st1 with
        | (some err, st2) => (("", some err), st2)
        | (none, st2) => ((data.Jid, none), st2)

/-- Go `(*Producer).Enqueue`; `clock` is the reading
`nowToSecondsWithNanoPrecision()` returns in `Enqueue` itself, before
`EnqueueWithOptions` takes its own. -/
def Enqueue {σ α P : Type} (store : Store σ P) (enc : Encoder α P) (clock : Float64)
    (env : Env) (queue cls : String) (args : α) (st : σ) : (String × Option Error) × σ :=
  EnqueueWithOptions store enc env queue cls args
    { RetryCount := 0, Retry := false, At := clock } st

/-- Go `(*Producer).EnqueueIn`; `clock` is the reading taken in `EnqueueIn`. -/
def EnqueueIn {σ α P : Type} (store : Store σ P) (enc : Encoder α P) (clock : Float64)
    (env : Env) (queue cls : String) (delay : Float64) (args : α) (st : σ) :
    (String × Option Error) × σ :=
  EnqueueWithOptions store enc env queue cls args
    { RetryCount := 0, Retry := false, At := Float64.add clock delay } st

/-- Go `(*Producer).EnqueueInWithOptions`; `clock` is the reading taken in it. -/
def EnqueueInWithOptions {σ α P : Type} (store : Store σ P) (enc : Encoder α P)
    (clock : Float64) (env : Env) (queue cls : String) (delay : Float64) (args : α)
    (opts : EnqueueOptions) (st : σ) : (String × Option Error) × σ :=
  let opts := { opts with At := Float64.add clock delay }
  EnqueueWithOptions store enc env queue cls args opts st

/-! ## Constructors -/

/-- Go `Producer`; `Ω` is the `Options` type, declared outside `producer.go`. -/
structure Producer (Ω : Type) where
  /-- The resolved options. -/
  opts : Ω
  deriving DecidableEq

/-- Go `NewProducer`.  The resolver `processOptions` lives in another file and
is a parameter; it returns the Go pair `(Options, error)`.  The result is the
pair `(*Producer, error)`, `none` standing for `nil`. -/
def NewProducer {Ω : Type} (processOptions : Ω → Ω × Option Error) (options : Ω) :
    Option (Producer Ω) × Option Error :=
  match processOptions options with
  | (_, some err) => (none, some err)
  | (options, none) => (some { opts := options }, none)

/-- Go `NewProducerWithRedisClient`; `κ` is the type of the client handle. -/
def NewProducerWithRedisClient {Ω κ : Type}
    (processOptionsWithRedisClient : Ω → κ → Ω × Option Error) (options : Ω) (client : κ) :
    Option (Producer Ω) × Option Error :=
  match processOptionsWithRedisClient options client with
  | (_, some err) => (none, some err)
  | (options, none) => (some { opts := options }, none)

/-! ## The JSON written and read by `encoding/json` -/

/-- A JSON value as far as the envelope has them, by what the text denotes:
`int` is a number written without fraction or exponent, `frac` one written
with, both by their exact value; `raw` is any other value (array, object),
which occurs as the encoding of `Args` only. -/
inductive Token (J : Type) where
  | null
  | bool (b : Bool)
  | int (n : Int)
  | frac (q : ℚ)
  | str (s : String)
  | raw (j : J)
  deriving DecidableEq

/-- A JSON object by its members, in the order they are written. -/
abbrev Doc (J : Type) := List (String × Token J)

/-- The number `encoding/json` writes for a finite `float64`: the shortest
decimal that parses back to it, without fraction or exponent when that decimal
is an integer below `1e21`. -/
def numberToken {J : Type} (q : ℚ) : Token J :=
  if q = 0 then Token.int 0
  else if (Float64.shortest q).den = 1 ∧ |q| < 10 ^ 21 then Token.int (Float64.shortest q).num
  else Token.frac (Float64.shortest q)

/-- The encoding of a `float64`: NaN and the infinities are unsupported
values. -/
def encodeFloat {J : Type} : Float64 → Except Error (Token J)
  | Float64.nan => .error "json: unsupported value: NaN"
  | Float64.posInf => .error "json: unsupported value: +Inf"
  | Float64.negInf => .error "json: unsupported value: -Inf"
  | Float64.finite q => .ok (numberToken q)

/-- The encoding of one member value.  `encArgs` is what `encoding/json` does
with the dynamic value of `Args`. -/
def encodeValue {α J : Type} (encArgs : α → Except Error (Token J)) :
    Value α → Except Error (Token J)
  | Value.str s => .ok (Token.str s)
  | Value.int n => .ok (Token.int n)
  | Value.bool b => .ok (Token.bool b)
  | Value.num x => encodeFloat x
  | Value.any a => encArgs a

/-- The members are encoded in order; the first failure ends the encoding. -/
def encodeMembers {α J : Type} (encArgs : α → Except Error (Token J)) :
    Wire α → Except Error (Doc J)
  | [] => .ok []
  | (k, v) :: rest =>
    match encodeValue encArgs v with
    | .error e => .error e
    | .ok t =>
      match encodeMembers encArgs rest with
      | .error e => .error e
      | .ok doc => .ok ((k, t) :: doc)

/-- The encoder of `encoding/json`, up to the spelling of the text. -/
def jsonEncoder {α J : Type} (encArgs : α → Except Error (Token J)) : Encoder α (Doc J) :=
  encodeMembers encArgs

/-- The fields of `EnqueueData`, those of the embedded struct included. -/
inductive Field where
  | Queue
  | Class
  | Args
  | Jid
  | EnqueuedAt
  | RetryCount
  | Retry
  | At
  deriving DecidableEq

/-- The name a field has in JSON, from its struct tag. -/
def Field.wireName : Field → String
  | Field.Queue => "queue"
  | Field.Class => "class"
  | Field.Args => "args"
  | Field.Jid => "jid"
  | Field.EnqueuedAt => "enqueued_at"
  | Field.RetryCount => "retry_count"
  | Field.Retry => "retry"
  | Field.At => "at"

/-- Case folding of key characters: ASCII capitals, the Kelvin sign and the
long s fold to the small ASCII letter. -/
def foldChar (c : Char) : Char :=
  if 65 ≤ c.toNat ∧ c.toNat ≤ 90 then Char.ofNat (c.toNat + 32)
  else if c.toNat = 0x212A then 'k'
  else if c.toNat = 0x017F then 's'
  else c

/-- The field a key of the object addresses: the one whose name it equals, case
folded; keys addressing no field are skipped by the decoder. -/
def fieldOf (key : String) : Option Field :=
  [Field.Queue, Field.Class, Field.Args, Field.Jid, Field.EnqueuedAt, Field.RetryCount,
    Field.Retry, Field.At].find? (fun f => decide (key.data.map foldChar = f.wireName.data))

/-- Decoding into a `string` field. -/
def decodeString {J : Type} (old : String) : Token J → Except Error String
  | Token.null => .ok old
  | Token.str s => .ok s
  | _ => .error "json: cannot unmarshal into Go struct field of type string"

/-- Decoding into an `int` field (64 bits). -/
def decodeInt {J : Type} (old : Int) : Token J → Except Error Int
  | Token.null => .ok old
  | Token.int n =>
    if -9223372036854775808 ≤ n ∧ n ≤ 9223372036854775807 then .ok n
    else .error "json: cannot unmarshal number into Go struct field of type int"
  | _ => .error "json: cannot unmarshal into Go struct field of type int"

/-- Decoding into a `bool` field. -/
def decodeBool {J : Type} (old : Bool) : Token J → Except Error Bool
  | Token.null => .ok old
  | Token.bool b => .ok b
  | _ => .error "json: cannot unmarshal into Go struct field of type bool"

/-- Parsing of a number for a `float64`: the nearest value; a number beyond the
range is refused. -/
def parseFloat (q : ℚ) : Except Error Float64 :=
  match Float64.ofRat q with
  | Float64.finite v => .ok (Float64.finite v)
  | _ => .error "json: cannot unmarshal number into Go struct field of type float64"

/-- Decoding into a `float64` field. -/
def decodeFloat {J : Type} (old : Float64) : Token J → Except Error Float64
  | Token.null => .ok old
  | Token.int n => parseFloat n
  | Token.frac q => parseFloat q
  | _ => .error "json: cannot unmarshal into Go struct field of type float64"

/-- Decoding of the member addressing field `f` into the record.  `decArgs` is
what `encoding/json` stores in an `interface{}` for a JSON value. -/
def setField {α J : Type} (decArgs : Token J → Except Error α) (d : EnqueueData α)
    (f : Field) (t : Token J) : Except Error (EnqueueData α) :=
  match f with
  | Field.Queue => (decodeString d.Queue t).map (fun v => { d with Queue := v })
  | Field.Class => (decodeString d.Class t).map (fun v => { d with Class := v })
  | Field.Args => (decArgs t).map (fun v => { d with Args := v })
  | Field.Jid => (decodeString d.Jid t).map (fun v => { d with Jid := v })
  | Field.EnqueuedAt => (decodeFloat d.EnqueuedAt t).map (fun v => { d with EnqueuedAt := v })
  | Field.RetryCount => (decodeInt d.RetryCount t).map (fun v => { d with RetryCount := v })
  | Field.Retry => (decodeBool d.Retry t).map (fun v => { d with Retry := v })
  | Field.At => (decodeFloat d.At t).map (fun v => { d with At := v })

/-- One step of the decoder: the member is skipped when its key addresses no
field; a value that does not fit its field leaves the field as it is and is
remembered as an error, the first one being kept. -/
def decodeMember {α J : Type} (decArgs : Token J → Except Error α)
    (acc : EnqueueData α × Option Error) (m : String × Token J) :
    EnqueueData α × Option Error :=
  match fieldOf m.1 with
  | none => acc
  | some f =>
    match setField decArgs acc.1 f m.2 with
    | .ok d => (d, acc.2)
    | .error e => (acc.1, match acc.2 with | some e0 => some e0 | none => some e)

/-- Go `json.Unmarshal` of an object into the record `into`, up to the
spelling of the text: the members are decoded in order, a later member for the
same field replacing an earlier one, and the first error is returned. -/
def Unmarshal {α J : Type} (decArgs : Token J → Except Error α) (doc : Doc J)
    (into : EnqueueData α) : Except Error (EnqueueData α) :=
  match doc.foldl (decodeMember decArgs) (into, none) with
  | (d, none) => .ok d
  | (_, some e) => .error e

/-- A small universe of dynamic values for `Args`.  A map is given by its
members in key order, the order they are written in; `mapStringInterface` is a
`map[string]interface{}` whose values are strings. -/
inductive GoValue where
  | nil
  | bool (b : Bool)
  | int (n : Int)
  | float64 (x : Float64)
  | string (s : String)
  | mapStringString (m : List (String × String))
  | mapStringInterface (m : List (String × String))
  | channel
  deriving DecidableEq

/-- What `json.Marshal` writes for a `GoValue`; a channel is an unsupported
type. -/
def encodeGoValue : GoValue → Except Error (Token (List (String × String)))
  | GoValue.nil => .ok Token.null
  | GoValue.bool b => .ok (Token.bool b)
  | GoValue.int n => .ok (Token.int n)
  | GoValue.float64 x => encodeFloat x
  | GoValue.string s => .ok (Token.str s)
  | GoValue.mapStringString m => .ok (Token.raw m)
  | GoValue.mapStringInterface m => .ok (Token.raw m)
  | GoValue.channel => .error "json: unsupported type: chan int"

/-- What `json.Unmarshal` stores in an `interface{}`: `nil`, `bool`, `float64`
for every number, `string`, and `map[string]interface{}` for an object. -/
def decodeGoValue : Token (List (String × String)) → Except Error GoValue
  | Token.null => .ok GoValue.nil
  | Token.bool b => .ok (GoValue.bool b)
  | Token.int n => (parseFloat n).map GoValue.float64
  | Token.frac q => (parseFloat q).map GoValue.float64
  | Token.str s => .ok (GoValue.string s)
  | Token.raw m => .ok (GoValue.mapStringInterface m)

/-! ## Sample inputs -/

/-- Arguments used in the examples: `none` is Go `nil`, `some m` a string map. -/
abbrev SampleArgs := Option (List (String × String))

/-- Equality of sample member values is decidable. -/
instance instDecidableEqSampleValue : DecidableEq (Value SampleArgs) :=
  inferInstance

/-- Equality of sample members is decidable. -/
instance instDecidableEqSampleMember : DecidableEq (String × Value SampleArgs) :=
  inferInstance

/-- Equality of sample payloads is decidable. -/
instance instDecidableEqSampleWire : DecidableEq (Wire SampleArgs) :=
  inferInstance

/-- Twelve bytes as a successful random read delivers them. -/
def sampleBytes : List Byte :=
  [0x3f, 0xa9, 0x00, 0x17, 0xc4, 0x5e, 0x88, 0x01, 0xff, 0x20, 0x6b, 0xd2]

/-- An encoder that never fails and identifies a payload with the object it
denotes. -/
def plainEncoder (α : Type) : Encoder α (Wire α) :=
  fun w => .ok w

/-- A store whose three operations all succeed. -/
def workingStore (P : Type) : Store Unit P :=
  fixedStore P none none none

/-- A toy resolver: an empty process identifier is a configuration error. -/
def sampleResolver (processID : String) : String × Option Error :=
  if processID = "" then ("", some "Options requires a ProcessID")
  else (processID, none)


/-- Equality of results is decidable. -/
instance instDecidableEqExcept {ε β : Type} [DecidableEq ε] [DecidableEq β] :
    DecidableEq (Except ε β)
  | .ok a, .ok b =>
    if h : a = b then isTrue (by rw [h]) else isFalse (fun h2 => h (by cases h2; rfl))
  | .error a, .error b =>
    if h : a = b then isTrue (by rw [h]) else isFalse (fun h2 => h (by cases h2; rfl))
  | .ok _, .error _ => isFalse (fun h => by cases h)
  | .error _, .ok _ => isFalse (fun h => by cases h)

/-- A record as `EnqueueWithOptions` builds it, with an integer argument. -/
def sampleData : EnqueueData GoValue :=
  { RetryCount := 3, Retry := true, At := Float64.finite 1700003600,
    Queue := "default", Class := "Ping", Args := GoValue.int 42,
    Jid := "3fa90017c45e8801ff206bd2", EnqueuedAt := Float64.finite (3400000001 / 2) }

/-! ## Auxiliary facts -/

theorem Float64.lt_false_of_ge (x y : Float64) (h : Float64.ge x y = true) :
    Float64.lt x y = false := by
  cases x <;> cases y <;> simp_all [Float64.ge, Float64.lt]

theorem hexVal_hexDigit : ∀ n, n < 16 → hexVal (hexDigit n) = some n := by decide

theorem hexDigit_mem : ∀ n, n < 16 → hexDigit n ∈ "0123456789abcdef".data := by decide

theorem hexByte_decode (b : Byte) (rest : List Char) :
    decodeHex (hexByte b ++ rest) = (decodeHex rest).map (fun bs => b :: bs) := by
  have h1 : b.val / 16 < 16 := by omega
  have h2 : b.val % 16 < 16 := by omega
  have hb : (Fin.ofNat (16 * (b.val / 16) + b.val % 16) : Fin 256) = b := by
    apply Fin.ext
    simp [Fin.ofNat]
    omega
  simp only [hexByte, List.cons_append, List.nil_append, decodeHex, hexVal_hexDigit _ h1,
    hexVal_hexDigit _ h2]
  cases h : decodeHex rest <;> simp [hb, h]

theorem decodeHex_flatMap (bs : List Byte) : decodeHex (bs.flatMap hexByte) = some bs := by
  induction bs with
  | nil => simp [decodeHex]
  | cons b bs ih => simp [List.flatMap_cons, hexByte_decode, ih]

theorem length_flatMap_hexByte (bs : List Byte) :
    (bs.flatMap hexByte).length = 2 * bs.length := by
  induction bs with
  | nil => simp
  | cons b bs ih => simp [List.flatMap_cons, hexByte, ih]; omega

theorem mem_flatMap_hexByte (bs : List Byte) (c : Char) (h : c ∈ bs.flatMap hexByte) :
    c ∈ "0123456789abcdef".data := by
  simp only [List.mem_flatMap, hexByte] at h
  obtain ⟨b, -, hc⟩ := h
  have h1 : b.val / 16 < 16 := by omega
  have h2 : b.val % 16 < 16 := by omega
  simp only [List.mem_cons, List.mem_singleton, List.not_mem_nil, or_false] at hc
  rcases hc with rfl | rfl
  · exact hexDigit_mem _ h1
  · exact hexDigit_mem _ h2

theorem getElem_flatMap_hexByte (bs : List Byte) (i : Nat) (h : i < bs.length) :
    (bs.flatMap hexByte)[2 * i]? = some (hexDigit ((bs.get ⟨i, h⟩).val / 16)) ∧
    (bs.flatMap hexByte)[2 * i + 1]? = some (hexDigit ((bs.get ⟨i, h⟩).val % 16)) := by
  induction bs generalizing i with
  | nil => simp at h
  | cons b bs ih =>
    cases i with
    | zero => simp [List.flatMap_cons, hexByte]
    | succ j =>
      have hj : j < bs.length := by simpa using h
      have := ih j hj
      simp only [List.flatMap_cons, hexByte, List.cons_append, List.nil_append]
      have e1 : 2 * (j + 1) = (2 * j) + 1 + 1 := by ring
      rw [e1]
      simpa using this

theorem envelope_At {α : Type} (env : Env) (queue cls : String) (args : α) (opts : EnqueueOptions) :
    (envelope env queue cls args opts).At = opts.At := rfl

theorem envelope_Jid {α : Type} (env : Env) (queue cls : String) (args : α) (opts : EnqueueOptions) :
    (envelope env queue cls args opts).Jid = generateJid env.read := rfl

theorem run_marshal_error {σ α P : Type} (store : Store σ P) (enc : Encoder α P) (env : Env)
    (queue cls : String) (args : α) (opts : EnqueueOptions) (st : σ) (tr : List (Entry P))
    (e : Error) (hser : Marshal enc (envelope env queue cls args opts) = .error e) :
    EnqueueWithOptions store.traced enc env queue cls args opts (st, tr)
      = (("", some e), (st, tr)) := by
  simp [EnqueueWithOptions, hser]

theorem run_scheduled {σ α P : Type} (store : Store σ P) (enc : Encoder α P) (env : Env)
    (queue cls : String) (args : α) (opts : EnqueueOptions) (st : σ) (tr : List (Entry P))
    (payload : P) (hser : Marshal enc (envelope env queue cls args opts) = .ok payload)
    (hlt : Float64.lt env.now opts.At = true) :
    EnqueueWithOptions store.traced enc env queue cls args opts (st, tr)
      = ((generateJid env.read, (store.EnqueueScheduledMessage opts.At payload st).1),
         ((store.EnqueueScheduledMessage opts.At payload st).2,
          tr ++ [(Call.EnqueueScheduledMessage opts.At payload,
                  (store.EnqueueScheduledMessage opts.At payload st).1)])) := by
  simp [EnqueueWithOptions, hser, hlt, Store.traced, envelope_At, envelope_Jid]

theorem run_create_failed {σ α P : Type} (store : Store σ P) (enc : Encoder α P) (env : Env)
    (queue cls : String) (args : α) (opts : EnqueueOptions) (st : σ) (tr : List (Entry P))
    (payload : P) (hser : Marshal enc (envelope env queue cls args opts) = .ok payload)
    (hlt : Float64.lt env.now opts.At = false)
    (e : Error) (hc : (store.CreateQueue queue st).1 = some e) :
    EnqueueWithOptions store.traced enc env queue cls args opts (st, tr)
      = (("", some e),
         ((store.CreateQueue queue st).2, tr ++ [(Call.CreateQueue queue, some e)])) := by
  simp [EnqueueWithOptions, hser, hlt, Store.traced, envelope_At, envelope_Jid, hc]

theorem run_push_failed {σ α P : Type} (store : Store σ P) (enc : Encoder α P) (env : Env)
    (queue cls : String) (args : α) (opts : EnqueueOptions) (st : σ) (tr : List (Entry P))
    (payload : P) (hser : Marshal enc (envelope env queue cls args opts) = .ok payload)
    (hlt : Float64.lt env.now opts.At = false)
    (hc : (store.CreateQueue queue st).1 = none)
    (e : Error) (hn : (store.EnqueueMessageNow queue payload (store.CreateQueue queue st).2).1 = some e) :
    EnqueueWithOptions store.traced enc env queue cls args opts (st, tr)
      = (("", some e),
         ((store.EnqueueMessageNow queue payload (store.CreateQueue queue st).2).2,
          tr ++ [(Call.CreateQueue queue, none), (Call.EnqueueMessageNow queue payload, some e)])) := by
  simp [EnqueueWithOptions, hser, hlt, Store.traced, envelope_At, envelope_Jid, hc, hn]

theorem run_pushed {σ α P : Type} (store : Store σ P) (enc : Encoder α P) (env : Env)
    (queue cls : String) (args : α) (opts : EnqueueOptions) (st : σ) (tr : List (Entry P))
    (payload : P) (hser : Marshal enc (envelope env queue cls args opts) = .ok payload)
    (hlt : Float64.lt env.now opts.At = false)
    (hc : (store.CreateQueue queue st).1 = none)
    (hn : (store.EnqueueMessageNow queue payload (store.CreateQueue queue st).2).1 = none) :
    EnqueueWithOptions store.traced enc env queue cls args opts (st, tr)
      = ((generateJid env.read, none),
         ((store.EnqueueMessageNow queue payload (store.CreateQueue queue st).2).2,
          tr ++ [(Call.CreateQueue queue, none), (Call.EnqueueMessageNow queue payload, none)])) := by
  simp [EnqueueWithOptions, hser, hlt, Store.traced, envelope_At, envelope_Jid, hc, hn]

theorem encodeMembers_append {α J : Type} (encArgs : α → Except Error (Token J))
    (w1 w2 : Wire α) :
    encodeMembers encArgs (w1 ++ w2) =
      match encodeMembers encArgs w1 with
      | .error e => .error e
      | .ok d1 =>
        match encodeMembers encArgs w2 with
        | .error e => .error e
        | .ok d2 => .ok (d1 ++ d2) := by
  induction w1 with
  | nil => cases h : encodeMembers encArgs w2 <;> simp [encodeMembers, h]
  | cons m w1 ih =>
    obtain ⟨k, v⟩ := m
    cases hv : encodeValue encArgs v <;>
      cases h1 : encodeMembers encArgs w1 <;>
      cases h2 : encodeMembers encArgs w2 <;>
      simp [encodeMembers, ih, hv, h1, h2]

theorem isFinite_iff (x : Float64) : x.isFinite = true ↔ ∃ q, x = Float64.finite q := by
  cases x <;> simp [Float64.isFinite]

theorem find_some_pred {β : Type} (p : β → Bool) (l : List β) (c : β)
    (h : l.find? p = some c) : p c = true := by
  induction l with
  | nil => simp at h
  | cons a l ih =>
    simp only [List.find?_cons] at h
    cases hp : p a with
    | true => rw [hp] at h; cases h; exact hp
    | false => rw [hp] at h; exact ih h

theorem ofRat_shortest (q : ℚ) (h : Float64.ofRat q = Float64.finite q) :
    Float64.ofRat (Float64.shortest q) = Float64.finite q := by
  unfold Float64.shortest
  simp only
  split
  · rename_i c hc
    have := find_some_pred _ _ _ hc
    simpa using this
  · exact h

theorem parseFloat_numberToken {J : Type} (old : Float64) (q : ℚ)
    (h : Float64.ofRat q = Float64.finite q) :
    decodeFloat (J := J) old (numberToken q) = .ok (Float64.finite q) := by
  unfold numberToken
  by_cases h0 : q = 0
  · subst h0
    simp [decodeFloat, parseFloat, Float64.ofRat]
  · simp only [h0, if_false]
    have hs := ofRat_shortest q h
    split
    · rename_i hden
      have : ((Float64.shortest q).num : ℚ) = Float64.shortest q :=
        Rat.coe_int_num_of_den_eq_one hden.1
      simp [decodeFloat, parseFloat, this, hs]
    · simp [decodeFloat, parseFloat, hs]


theorem fieldOf_queue : fieldOf "queue" = some Field.Queue := by decide
theorem fieldOf_class : fieldOf "class" = some Field.Class := by decide
theorem fieldOf_args : fieldOf "args" = some Field.Args := by decide
theorem fieldOf_jid : fieldOf "jid" = some Field.Jid := by decide
theorem fieldOf_enqueued_at : fieldOf "enqueued_at" = some Field.EnqueuedAt := by decide
theorem fieldOf_retry_count : fieldOf "retry_count" = some Field.RetryCount := by decide
theorem fieldOf_retry : fieldOf "retry" = some Field.Retry := by decide
theorem fieldOf_at : fieldOf "at" = some Field.At := by decide

/-! ## The claims -/

/-- C1: decision rule of `EnqueueWithOptions`.  When serialisation succeeds
with `payload` and every store call made during the call succeeds, the call
returns the generated id and no error; if `now < opts.At` the store receives
exactly the one call `EnqueueScheduledMessage(opts.At, payload)`; otherwise,
and in particular whenever `now >= opts.At`, it receives `CreateQueue(queue)`
followed by `EnqueueMessageNow(queue, payload)` and nothing else. -/
theorem EnqueueWithOptions_decision {σ α P : Type} (store : Store σ P) (enc : Encoder α P)
    (env : Env) (queue cls : String) (args : α) (opts : EnqueueOptions) (st : σ) (payload : P)
    (hser : Marshal enc (envelope env queue cls args opts) = .ok payload)
    (hstore : ∀ x ∈ (EnqueueWithOptions store.traced enc env queue cls args opts
      (st, [])).2.2, x.2 = none) :
    (EnqueueWithOptions store.traced enc env queue cls args opts (st, [])).1
        = (generateJid env.read, none) ∧
    (Float64.lt env.now opts.At = true →
      (EnqueueWithOptions store.traced enc env queue cls args opts (st, [])).2.2
        = [(Call.EnqueueScheduledMessage opts.At payload, none)]) ∧
    (Float64.lt env.now opts.At = false →
      (EnqueueWithOptions store.traced enc env queue cls args opts (st, [])).2.2
        = [(Call.CreateQueue queue, none), (Call.EnqueueMessageNow queue payload, none)]) ∧
    (Float64.ge env.now opts.At = true →
      (EnqueueWithOptions store.traced enc env queue cls args opts (st, [])).2.2
        = [(Call.CreateQueue queue, none), (Call.EnqueueMessageNow queue payload, none)]) := by
  cases hlt : Float64.lt env.now opts.At with
  | true =>
    have hrun := run_scheduled store enc env queue cls args opts st [] payload hser hlt
    rw [hrun] at hstore ⊢
    have hs : (store.EnqueueScheduledMessage opts.At payload st).1 = none :=
      hstore (Call.EnqueueScheduledMessage opts.At payload,
        (store.EnqueueScheduledMessage opts.At payload st).1) (by simp)
    refine ⟨by simp [hs], fun _ => by simp [hs], fun h => by simp at h, fun hg => ?_⟩
    rw [Float64.lt_false_of_ge _ _ hg] at hlt
    simp at hlt
  | false =>
    cases hc : (store.CreateQueue queue st).1 with
    | some e1 =>
      have hrun := run_create_failed store enc env queue cls args opts st [] payload hser
        hlt e1 hc
      rw [hrun] at hstore
      have := hstore (Call.CreateQueue queue, some e1) (by simp)
      simp at this
    | none =>
      cases hn : (store.EnqueueMessageNow queue payload (store.CreateQueue queue st).2).1 with
      | some e2 =>
        have hrun := run_push_failed store enc env queue cls args opts st [] payload hser
          hlt hc e2 hn
        rw [hrun] at hstore
        have := hstore (Call.EnqueueMessageNow queue payload, some e2) (by simp)
        simp at this
      | none =>
        have hrun := run_pushed store enc env queue cls args opts st [] payload hser
          hlt hc hn
        rw [hrun]
        exact ⟨rfl, fun h => by simp at h, fun _ => rfl, fun _ => rfl⟩

/-- Witness for C1 at the boundary `now == opts.At`: the job is pushed
immediately. -/
theorem EnqueueWithOptions_decision_witness :
    (∀ x ∈ (EnqueueWithOptions (workingStore (Wire SampleArgs)).traced
        (plainEncoder SampleArgs)
        { now := Float64.finite 1700000000, read := .ok sampleBytes }
        "default" "SendEmail" (some [("to", "a@b.com")])
        { RetryCount := 0, Retry := false, At := Float64.finite 1700000000 } ((), [])).2.2,
      x.2 = none) ∧
    (EnqueueWithOptions (workingStore (Wire SampleArgs)).traced (plainEncoder SampleArgs)
        { now := Float64.finite 1700000000, read := .ok sampleBytes }
        "default" "SendEmail" (some [("to", "a@b.com")])
        { RetryCount := 0, Retry := false, At := Float64.finite 1700000000 } ((), [])).2.2
      = [(Call.CreateQueue "default", none),
         (Call.EnqueueMessageNow "default"
           (fields (envelope { now := Float64.finite 1700000000, read := .ok sampleBytes }
             "default" "SendEmail" (some [("to", "a@b.com")])
             { RetryCount := 0, Retry := false, At := Float64.finite 1700000000 })), none)] :=
  have hw : ∀ x ∈ (EnqueueWithOptions (workingStore (Wire SampleArgs)).traced
        (plainEncoder SampleArgs)
        { now := Float64.finite 1700000000, read := .ok sampleBytes }
        "default" "SendEmail" (some [("to", "a@b.com")])
        { RetryCount := 0, Retry := false, At := Float64.finite 1700000000 } ((), [])).2.2,
      x.2 = none := by
    simp [EnqueueWithOptions, Marshal, plainEncoder, envelope, Float64.lt, Store.traced,
      workingStore, fixedStore]
  ⟨hw, (EnqueueWithOptions_decision (workingStore (Wire SampleArgs)) (plainEncoder SampleArgs)
      { now := Float64.finite 1700000000, read := .ok sampleBytes }
      "default" "SendEmail" (some [("to", "a@b.com")])
      { RetryCount := 0, Retry := false, At := Float64.finite 1700000000 } () _ rfl hw).2.2.2
      (by simp [Float64.ge])⟩

/-- C3: first-error propagation in `EnqueueWithOptions`, for every store.  A
serialisation failure is returned as it is and no store call is made; the call
returns an error exactly when serialisation failed or a store call it made
failed; a failed store call is the last call made and its error is the one
returned; and no call is made twice. -/
theorem EnqueueWithOptions_first_error {σ α P : Type} (store : Store σ P) (enc : Encoder α P)
    (env : Env) (queue cls : String) (args : α) (opts : EnqueueOptions) (st : σ) :
    (∀ e, Marshal enc (envelope env queue cls args opts) = .error e →
      (EnqueueWithOptions store.traced enc env queue cls args opts (st, [])).1.2 = some e ∧
      (EnqueueWithOptions store.traced enc env queue cls args opts (st, [])).2.2 = []) ∧
    ((EnqueueWithOptions store.traced enc env queue cls args opts (st, [])).1.2 ≠ none ↔
      ((∃ e, Marshal enc (envelope env queue cls args opts) = .error e) ∨
       ∃ c e, (c, some e) ∈
         (EnqueueWithOptions store.traced enc env queue cls args opts (st, [])).2.2)) ∧
    (∀ pre c e post,
      (EnqueueWithOptions store.traced enc env queue cls args opts (st, [])).2.2
        = pre ++ (c, some e) :: post →
      post = [] ∧
      (EnqueueWithOptions store.traced enc env queue cls args opts (st, [])).1.2 = some e) ∧
    ((EnqueueWithOptions store.traced enc env queue cls args opts (st, [])).2.2.map
      Prod.fst).Nodup := by
  cases hser : Marshal enc (envelope env queue cls args opts) with
  | error e0 =>
    rw [run_marshal_error store enc env queue cls args opts st [] e0 hser]
    simp
  | ok payload =>
    cases hlt : Float64.lt env.now opts.At with
    | true =>
      rw [run_scheduled store enc env queue cls args opts st [] payload hser hlt]
      refine ⟨by simp, ?_, ?_, by simp⟩
      · cases hr : (store.EnqueueScheduledMessage opts.At payload st).1 <;> simp
      · intro pre c e post h
        rcases pre with _ | ⟨x, pre⟩
        · simp at h
          obtain ⟨⟨-, h1⟩, h2⟩ := h
          exact ⟨h2, h1⟩
        · simp at h
    | false =>
      cases hc : (store.CreateQueue queue st).1 with
      | some e1 =>
        rw [run_create_failed store enc env queue cls args opts st [] payload hser hlt e1 hc]
        refine ⟨by simp, by simp, ?_, by simp⟩
        intro pre c e post h
        rcases pre with _ | ⟨x, pre⟩
        · simp at h
          obtain ⟨⟨-, h1⟩, h2⟩ := h
          exact ⟨h2, by simp [h1]⟩
        · simp at h
      | none =>
        cases hn : (store.EnqueueMessageNow queue payload (store.CreateQueue queue st).2).1 with
        | some e2 =>
          rw [run_push_failed store enc env queue cls args opts st [] payload hser hlt hc e2 hn]
          refine ⟨by simp, by simp, ?_, by simp⟩
          intro pre c e post h
          rcases pre with _ | ⟨x, _ | ⟨y, pre⟩⟩
          · simp at h
          · simp at h
            obtain ⟨-, ⟨-, h1⟩, h2⟩ := h
            exact ⟨h2, by simp [h1]⟩
          · simp at h
        | none =>
          rw [run_pushed store enc env queue cls args opts st [] payload hser hlt hc hn]
          refine ⟨by simp, by simp, ?_, by simp⟩
          intro pre c e post h
          rcases pre with _ | ⟨x, _ | ⟨y, pre⟩⟩ <;> simp at h

/-- C6, as stated, fails.  A record whose `At` is NaN has no JSON
serialisation: `json.Marshal` returns an error.  And a field that is present
need not parse back to the original value: `Args` holding the `int` 42 is
written as the number `42`, which comes back as the `float64` 42. -/
theorem Marshal_not_total_nor_invertible :
    Marshal (jsonEncoder encodeGoValue)
        ({ RetryCount := 3, Retry := true, At := Float64.nan,
           Queue := "default", Class := "Ping", Args := GoValue.int 42,
           Jid := "3fa90017c45e8801ff206bd2",
           EnqueuedAt := Float64.finite (3400000001 / 2) } : EnqueueData GoValue)
      = .error "json: unsupported value: NaN" ∧
    Marshal (jsonEncoder encodeGoValue) sampleData
      = .ok [("queue", Token.str "default"), ("class", Token.str "Ping"),
             ("args", Token.int 42), ("jid", Token.str "3fa90017c45e8801ff206bd2"),
             ("enqueued_at", Token.frac (3400000001 / 2)),
             ("retry_count", Token.int 3), ("retry", Token.bool true),
             ("at", Token.int 1700003600)] ∧
    (Unmarshal decodeGoValue
        [("queue", Token.str "default"), ("class", Token.str "Ping"),
         ("args", Token.int 42), ("jid", Token.str "3fa90017c45e8801ff206bd2"),
         ("enqueued_at", Token.frac (3400000001 / 2)),
         ("retry_count", Token.int 3), ("retry", Token.bool true),
         ("at", Token.int 1700003600)] (zeroData GoValue.nil)).map (fun d => d.Args)
      = .ok (GoValue.float64 (Float64.finite 42)) ∧
    GoValue.float64 (Float64.finite 42) ≠ sampleData.Args := by
  refine ⟨?_, ?_, ?_, ?_⟩
  · decide!
  · decide!
  · decide!
  · decide!

/-- C6 (amended): wire shape of the envelope, for Go strings that are valid
UTF-8.  `json.Marshal` accepts a record whose `EnqueuedAt` and `At` are finite
and whose `Args` can be encoded, and only such a record.  What it then writes
is one flat object: the members `class`, `args`, `jid` and `enqueued_at` are
always present, with the record's values (`args` with the encoding of `Args`);
`queue`, `retry_count`, `retry` and `at` are present, with the record's value,
exactly when `Queue` is not empty, `RetryCount` is not 0, `Retry` is true and
`At` is not 0; these are top-level members, the names are distinct and there
is no other member.  Parsing the object back into a zero record gives back
`Queue`, `Class`, `Jid`, `EnqueuedAt`, `RetryCount`, `Retry` and `At` as they
were, and for `Args` what the decoder makes of its encoding. -/
theorem Marshal_wire_shape {α J : Type} (encArgs : α → Except Error (Token J))
    (decArgs : Token J → Except Error α) (d : EnqueueData α) :
    ((d.EnqueuedAt.isFinite = true ∧ d.At.isFinite = true ∧ ∃ t, encArgs d.Args = .ok t) →
      ∃ doc, Marshal (jsonEncoder encArgs) d = .ok doc) ∧
    (∀ doc, Marshal (jsonEncoder encArgs) d = .ok doc →
      ∃ t ea a, encArgs d.Args = .ok t ∧ d.EnqueuedAt = Float64.finite ea ∧
        d.At = Float64.finite a ∧
        (List.lookup "class" doc = some (Token.str d.Class) ∧
         List.lookup "args" doc = some t ∧
         List.lookup "jid" doc = some (Token.str d.Jid) ∧
         List.lookup "enqueued_at" doc = some (numberToken ea)) ∧
        (List.lookup "queue" doc
          = if d.Queue = "" then none else some (Token.str d.Queue)) ∧
        (List.lookup "retry_count" doc
          = if d.RetryCount = 0 then none else some (Token.int d.RetryCount)) ∧
        (List.lookup "retry" doc = if d.Retry = true then some (Token.bool true) else none) ∧
        (List.lookup "at" doc = if a = 0 then none else some (numberToken a)) ∧
        (("queue" ∈ doc.map Prod.fst ↔ d.Queue ≠ "") ∧
         ("retry_count" ∈ doc.map Prod.fst ↔ d.RetryCount ≠ 0) ∧
         ("retry" ∈ doc.map Prod.fst ↔ d.Retry = true) ∧
         ("at" ∈ doc.map Prod.fst ↔ a ≠ 0)) ∧
        (doc.map Prod.fst).Nodup ∧
        (∀ k ∈ doc.map Prod.fst,
          k ∈ ["queue", "class", "args", "jid", "enqueued_at", "retry_count", "retry", "at"]) ∧
        (-9223372036854775808 ≤ d.RetryCount ∧ d.RetryCount ≤ 9223372036854775807 →
          d.EnqueuedAt.IsValue → d.At.IsValue →
          ∀ nil : α, Unmarshal decArgs doc (zeroData nil)
            = (decArgs t).map (fun v => { d with Args := v }))) := by
  obtain ⟨⟨rc, r, a⟩, q, c, ar, j, ea⟩ := d
  constructor
  · rintro ⟨hea, ha, t, ht⟩
    obtain ⟨ea, rfl⟩ := (isFinite_iff _).1 hea
    obtain ⟨a, rfl⟩ := (isFinite_iff _).1 ha
    simp only at ht
    by_cases hq : q = "" <;> by_cases hrc : rc = 0 <;> cases r <;> by_cases ha0 : a = 0 <;>
      simp [Marshal, jsonEncoder, fields, encodeMembers, encodeValue, encodeFloat, hq, hrc, ha0, ht,
        Float64.isZero]
  · intro doc hser
    cases hargs : encArgs ar with
    | error e =>
      exfalso
      by_cases hq : q = "" <;>
        simp [Marshal, jsonEncoder, fields, encodeMembers, encodeValue, encodeFloat, hq, hargs] at hser
    | ok t =>
      cases ea with
      | nan =>
        exfalso
        by_cases hq : q = "" <;>
          simp [Marshal, jsonEncoder, fields, encodeMembers, encodeValue, encodeFloat, hq, hargs] at hser
      | negInf =>
        exfalso
        by_cases hq : q = "" <;>
          simp [Marshal, jsonEncoder, fields, encodeMembers, encodeValue, encodeFloat, hq, hargs] at hser
      | posInf =>
        exfalso
        by_cases hq : q = "" <;>
          simp [Marshal, jsonEncoder, fields, encodeMembers, encodeValue, encodeFloat, hq, hargs] at hser
      | finite ea =>
        cases a with
        | nan =>
          exfalso
          by_cases hq : q = "" <;> by_cases hrc : rc = 0 <;> cases r <;>
            simp [Marshal, jsonEncoder, fields, encodeMembers, encodeValue, encodeFloat, hq, hrc, hargs,
              Float64.isZero] at hser
        | negInf =>
          exfalso
          by_cases hq : q = "" <;> by_cases hrc : rc = 0 <;> cases r <;>
            simp [Marshal, jsonEncoder, fields, encodeMembers, encodeValue, encodeFloat, hq, hrc, hargs,
              Float64.isZero] at hser
        | posInf =>
          exfalso
          by_cases hq : q = "" <;> by_cases hrc : rc = 0 <;> cases r <;>
            simp [Marshal, jsonEncoder, fields, encodeMembers, encodeValue, encodeFloat, hq, hrc, hargs,
              Float64.isZero] at hser
        | finite a =>
          refine ⟨t, ea, a, rfl, rfl, rfl, ?_⟩
          by_cases hq : q = "" <;> by_cases hrc : rc = 0 <;> cases r <;>
            by_cases ha0 : a = 0 <;>
            simp [Marshal, jsonEncoder, fields, encodeMembers, encodeValue, encodeFloat, hq, hrc, ha0, hargs,
              Float64.isZero] at hser <;>
            subst hser <;>
            (refine ⟨?_, ?_, ?_, ?_, ?_, ?_, ?_, ?_, ?_⟩ <;>
              first
              | (simp [List.lookup, hq, hrc, ha0]; done)
              | (intro hr hEA hAt nil
                 have hEA2 : Float64.ofRat ea = Float64.finite ea := hEA
                 have hAt2 : Float64.ofRat a = Float64.finite a := hAt
                 cases hdec : decArgs t <;>
                   simp [Unmarshal, List.foldl, decodeMember, setField, zeroData, fieldOf_queue,
                     fieldOf_class, fieldOf_args, fieldOf_jid, fieldOf_enqueued_at,
                     fieldOf_retry_count, fieldOf_retry, fieldOf_at, decodeString, decodeInt,
                     decodeBool, parseFloat_numberToken _ _ hEA2, parseFloat_numberToken _ _ hAt2,
                     hdec, hq, hrc, ha0, hr.1, hr.2, Except.map]))

/-- Witness for C6 (amended) on `sampleData`: the record is accepted, and the
object written parses back to the record with `Args` as the decoder gives
it. -/
theorem Marshal_wire_shape_witness :
    (∃ doc, Marshal (jsonEncoder encodeGoValue) sampleData = .ok doc) ∧
    Unmarshal decodeGoValue
        [("queue", Token.str "default"), ("class", Token.str "Ping"),
         ("args", Token.int 42), ("jid", Token.str "3fa90017c45e8801ff206bd2"),
         ("enqueued_at", Token.frac (3400000001 / 2)),
         ("retry_count", Token.int 3), ("retry", Token.bool true),
         ("at", Token.int 1700003600)] (zeroData GoValue.nil)
      = .ok { RetryCount := 3, Retry := true, At := Float64.finite 1700003600,
              Queue := "default", Class := "Ping",
              Args := GoValue.float64 (Float64.finite 42),
              Jid := "3fa90017c45e8801ff206bd2",
              EnqueuedAt := Float64.finite (3400000001 / 2) } := by
  refine ⟨(Marshal_wire_shape encodeGoValue decodeGoValue sampleData).1
    ⟨rfl, rfl, Token.int 42, rfl⟩, ?_⟩
  obtain ⟨t, ea, a, ht, -, -, -, -, -, -, -, -, -, -, hback⟩ :=
    (Marshal_wire_shape encodeGoValue decodeGoValue sampleData).2 _
      (show Marshal (jsonEncoder encodeGoValue) sampleData
        = .ok [("queue", Token.str "default"), ("class", Token.str "Ping"),
               ("args", Token.int 42), ("jid", Token.str "3fa90017c45e8801ff206bd2"),
               ("enqueued_at", Token.frac (3400000001 / 2)),
               ("retry_count", Token.int 3), ("retry", Token.bool true),
               ("at", Token.int 1700003600)] by decide!)
  have ht2 : t = Token.int 42 := by
    have h : (Except.ok (Token.int 42) : Except Error (Token (List (String × String))))
        = Except.ok t := ht
    exact (Except.ok.inj h).symm
  subst ht2
  have hE : sampleData.EnqueuedAt.IsValue := by
    show Float64.ofRat _ = Float64.finite _
    decide!
  have hA : sampleData.At.IsValue := by
    show Float64.ofRat _ = Float64.finite _
    decide!
  exact (hback ⟨by decide, by decide⟩ hE hA GoValue.nil).trans (by decide!)

/-- C7: identifier format.  For twelve bytes read successfully, `generateJid`
returns 24 characters, each one of `0123456789abcdef`; the characters at
positions `2i` and `2i+1` are the high and low hexadecimal digit of byte `i`;
read as hexadecimal the string gives the bytes back; and different byte
sequences give different identifiers. -/
theorem generateJid_format (b : List Byte) (hlen : b.length = 12) :
    (generateJid (.ok b)).length = 24 ∧
    (∀ c ∈ (generateJid (.ok b)).data, c ∈ "0123456789abcdef".data) ∧
    (∀ i (hi : i < b.length),
      (generateJid (.ok b)).data[2 * i]? = some (hexDigit ((b.get ⟨i, hi⟩).val / 16)) ∧
      (generateJid (.ok b)).data[2 * i + 1]? = some (hexDigit ((b.get ⟨i, hi⟩).val % 16))) ∧
    decodeHex (generateJid (.ok b)).data = some b ∧
    (∀ b2 : List Byte, b2.length = 12 → b2 ≠ b →
      generateJid (.ok b2) ≠ generateJid (.ok b)) := by
  refine ⟨?_, ?_, ?_, ?_, ?_⟩
  · show (b.flatMap hexByte).length = 24
    rw [length_flatMap_hexByte, hlen]
  · intro c hc
    exact mem_flatMap_hexByte b c (by simpa [generateJid, sprintfHex] using hc)
  · intro i hi
    simpa [generateJid, sprintfHex] using getElem_flatMap_hexByte b i hi
  · simp [generateJid, sprintfHex, decodeHex_flatMap]
  · intro b2 _ hne heq
    apply hne
    have h1 := decodeHex_flatMap b2
    have h2 := decodeHex_flatMap b
    have hd : b2.flatMap hexByte = b.flatMap hexByte := congrArg String.data heq
    rw [hd, h2] at h1
    exact (Option.some.inj h1).symm

/-- Witness for C7 on `sampleBytes`. -/
theorem generateJid_format_witness :
    sampleBytes.length = 12 ∧
    (generateJid (.ok sampleBytes)).length = 24 ∧
    generateJid (.ok sampleBytes) = "3fa90017c45e8801ff206bd2" :=
  ⟨by decide, (generateJid_format sampleBytes (by decide)).1, by decide⟩

/-- C9: no partial state on configuration error.  If the resolver fails with
`e`, the constructor returns a nil producer and exactly `e`; if it succeeds
with `r`, the constructor returns no error and a producer whose options are
`r`.  The same holds for the variant taking a client. -/
theorem NewProducer_result {Ω κ : Type} (processOptions : Ω → Ω × Option Error)
    (processOptionsWithRedisClient : Ω → κ → Ω × Option Error) (options : Ω) (client : κ) :
    (∀ r e, processOptions options = (r, some e) →
      NewProducer processOptions options = (none, some e)) ∧
    (∀ r, processOptions options = (r, none) →
      NewProducer processOptions options = (some { opts := r }, none)) ∧
    (∀ r e, processOptionsWithRedisClient options client = (r, some e) →
      NewProducerWithRedisClient processOptionsWithRedisClient options client
        = (none, some e)) ∧
    (∀ r, processOptionsWithRedisClient options client = (r, none) →
      NewProducerWithRedisClient processOptionsWithRedisClient options client
        = (some { opts := r }, none)) := by
  refine ⟨?_, ?_, ?_, ?_⟩
  · intro r e h; simp [NewProducer, h]
  · intro r h; simp [NewProducer, h]
  · intro r e h; simp [NewProducerWithRedisClient, h]
  · intro r h; simp [NewProducerWithRedisClient, h]

/-- Witness for C9: the sample resolver rejects an empty process identifier and
accepts `"1"`. -/
theorem NewProducer_result_witness :
    NewProducer sampleResolver "" = (none, some "Options requires a ProcessID") ∧
    NewProducer sampleResolver "1" = (some { opts := "1" }, none) :=
  ⟨(NewProducer_result sampleResolver (fun o (_ : Unit) => sampleResolver o) "" ()).1
      "" "Options requires a ProcessID" (by decide),
   (NewProducer_result sampleResolver (fun o (_ : Unit) => sampleResolver o) "1" ()).2.1
      "1" (by decide)⟩

/-- C2: evaluation of the code at a failing random read.  `generateJid`
swallows the read error and yields the empty identifier; `EnqueueWithOptions`
goes on, returns `("", nil)` and hands the store an envelope whose `jid` is
empty. -/
theorem EnqueueWithOptions_read_failure :
    EnqueueWithOptions (workingStore (Wire SampleArgs)).traced (plainEncoder SampleArgs)
        { now := Float64.finite 1700000000, read := .error "unexpected EOF" }
        "default" "Ping" none
        { RetryCount := 0, Retry := false, At := Float64.finite 0 } ((), [])
      = (("", none),
         ((), [(Call.CreateQueue "default", none),
               (Call.EnqueueMessageNow "default"
                 [("queue", Value.str "default"), ("class", Value.str "Ping"),
                  ("args", Value.any none), ("jid", Value.str ""),
                  ("enqueued_at", Value.num (Float64.finite 1700000000))], none)])) := by
  simp [EnqueueWithOptions, Marshal, plainEncoder, envelope, fields, generateJid,
    Float64.lt, Float64.isZero, Store.traced, workingStore, fixedStore]

/-- C4, as stated, fails: `Enqueue` sets `At` to its clock reading, so the
payload pushed for queue `default`, class `SendEmail` carries an `at` member. -/
theorem Enqueue_at_present :
    (Enqueue (workingStore (Wire SampleArgs)).traced (plainEncoder SampleArgs)
        (Float64.finite 1700000000)
        { now := Float64.finite 1700000000, read := .ok sampleBytes }
        "default" "SendEmail" (some [("to", "a@b.com")]) ((), [])).2.2
      = [(Call.CreateQueue "default", none),
         (Call.EnqueueMessageNow "default"
           [("queue", Value.str "default"), ("class", Value.str "SendEmail"),
            ("args", Value.any (some [("to", "a@b.com")])),
            ("jid", Value.str "3fa90017c45e8801ff206bd2"),
            ("enqueued_at", Value.num (Float64.finite 1700000000)),
            ("at", Value.num (Float64.finite 1700000000))], none)] ∧
    member "at"
        ([("queue", Value.str "default"), ("class", Value.str "SendEmail"),
          ("args", Value.any (some [("to", "a@b.com")])),
          ("jid", Value.str "3fa90017c45e8801ff206bd2"),
          ("enqueued_at", Value.num (Float64.finite 1700000000)),
          ("at", Value.num (Float64.finite 1700000000))] : Wire SampleArgs)
      = some (Value.num (Float64.finite 1700000000)) := by
  have hj : generateJid (.ok sampleBytes) = "3fa90017c45e8801ff206bd2" := by decide
  constructor
  · simp [Enqueue, EnqueueWithOptions, Marshal, plainEncoder, envelope, fields, hj,
      Float64.lt, Float64.isZero, Store.traced, workingStore, fixedStore]
  · simp [member, List.lookup]

/-- C4 (amended): `Enqueue` against a working store, with a serialisation that
succeeds with `payload`, a successful read of twelve random bytes and a clock
that has not gone back between the reading in `Enqueue` and the one in
`EnqueueWithOptions`.  The store receives `CreateQueue(queue)` followed by
`EnqueueMessageNow(queue, payload)` and nothing else; the identifier returned
has 24 lowercase hexadecimal characters; and the envelope has `at` set to the
reading of `Enqueue`, so that the member `at` is on the wire unless that
reading is zero. -/
theorem Enqueue_immediate {σ α P : Type} (store : Store σ P) (enc : Encoder α P)
    (clock : Float64) (env : Env) (queue cls : String) (args : α) (st : σ) (payload : P)
    (b : List Byte)
    (hstore : store.Working)
    (hser : Marshal enc (envelope env queue cls args
      { RetryCount := 0, Retry := false, At := clock }) = .ok payload)
    (hclock : Float64.lt env.now clock = false)
    (hread : env.read = .ok b) (hlen : b.length = 12) :
    (Enqueue store.traced enc clock env queue cls args (st, [])).2.2
      = [(Call.CreateQueue queue, none), (Call.EnqueueMessageNow queue payload, none)] ∧
    (Enqueue store.traced enc clock env queue cls args (st, [])).1 = (sprintfHex b, none) ∧
    (sprintfHex b).length = 24 ∧
    (∀ c ∈ (sprintfHex b).data, c ∈ "0123456789abcdef".data) ∧
    (envelope env queue cls args { RetryCount := 0, Retry := false, At := clock }).At = clock ∧
    member "at" (fields (envelope env queue cls args
        { RetryCount := 0, Retry := false, At := clock }))
      = (if clock.isZero = true then none else some (Value.num clock)) := by
  obtain ⟨hc, hn, -⟩ := hstore
  have hrun := run_pushed store enc env queue cls args
    { RetryCount := 0, Retry := false, At := clock } st [] payload hser hclock (hc _ _)
    (hn _ _ _)
  refine ⟨?_, ?_, ?_, ?_, rfl, ?_⟩
  · show (EnqueueWithOptions store.traced enc env queue cls args _ (st, [])).2.2 = _
    rw [hrun]; rfl
  · show (EnqueueWithOptions store.traced enc env queue cls args _ (st, [])).1 = _
    rw [hrun, hread]; rfl
  · show (b.flatMap hexByte).length = 24
    rw [length_flatMap_hexByte, hlen]
  · intro c hc
    exact mem_flatMap_hexByte b c hc
  · cases hz : clock.isZero <;>
      by_cases hq : queue = "" <;>
      simp [fields, member, List.lookup, envelope, hz, hq]

/-- Witness for C4 (amended) on queue `default`, class `SendEmail`. -/
theorem Enqueue_immediate_witness :
    (workingStore (Wire SampleArgs)).Working ∧
    Float64.lt (Float64.finite 1700000000) (Float64.finite 1700000000) = false ∧
    sampleBytes.length = 12 ∧
    (Enqueue (workingStore (Wire SampleArgs)).traced (plainEncoder SampleArgs)
        (Float64.finite 1700000000)
        { now := Float64.finite 1700000000, read := .ok sampleBytes }
        "default" "SendEmail" (some [("to", "a@b.com")]) ((), [])).1
      = (sprintfHex sampleBytes, none) :=
  have hw : (workingStore (Wire SampleArgs)).Working := by
    simp [Store.Working, workingStore, fixedStore]
  have hlt : Float64.lt (Float64.finite 1700000000) (Float64.finite 1700000000) = false := by
    simp [Float64.lt]
  ⟨hw, hlt, by decide,
   (Enqueue_immediate (workingStore (Wire SampleArgs)) (plainEncoder SampleArgs)
      (Float64.finite 1700000000)
      { now := Float64.finite 1700000000, read := .ok sampleBytes }
      "default" "SendEmail" (some [("to", "a@b.com")]) () _ sampleBytes hw rfl hlt rfl
      (by decide)).2.1⟩

/-- C5, as stated, fails, in two ways.  With a delay of one second and the
clock reading inside `EnqueueWithOptions` one second after the reading in
`EnqueueIn`, the job is no longer in the future and is pushed immediately.
With the positive delay `2⁻³⁰` the `float64` sum `1700000000 + 2⁻³⁰` is
`1700000000` again, and the job is pushed immediately even when both readings
are the same. -/
theorem EnqueueIn_pushed_when_due :
    (Float64.lt (Float64.finite 0) (Float64.finite 1) = true ∧
     (EnqueueIn (workingStore (Wire SampleArgs)).traced (plainEncoder SampleArgs)
         (Float64.finite 1700000000)
         { now := Float64.finite 1700000001, read := .ok sampleBytes }
         "default" "Ping" (Float64.finite 1) none ((), [])).2.2
       = [(Call.CreateQueue "default", none),
          (Call.EnqueueMessageNow "default"
            [("queue", Value.str "default"), ("class", Value.str "Ping"),
             ("args", Value.any none),
             ("jid", Value.str "3fa90017c45e8801ff206bd2"),
             ("enqueued_at", Value.num (Float64.finite 1700000001)),
             ("at", Value.num (Float64.finite 1700000001))], none)]) ∧
    (Float64.lt (Float64.finite 0) (Float64.finite (1 / 1073741824)) = true ∧
     (EnqueueIn (workingStore (Wire SampleArgs)).traced (plainEncoder SampleArgs)
         (Float64.finite 1700000000)
         { now := Float64.finite 1700000000, read := .ok sampleBytes }
         "default" "Ping" (Float64.finite (1 / 1073741824)) none ((), [])).2.2
       = [(Call.CreateQueue "default", none),
          (Call.EnqueueMessageNow "default"
            [("queue", Value.str "default"), ("class", Value.str "Ping"),
             ("args", Value.any none),
             ("jid", Value.str "3fa90017c45e8801ff206bd2"),
             ("enqueued_at", Value.num (Float64.finite 1700000000)),
             ("at", Value.num (Float64.finite 1700000000))], none)]) := by
  decide!

/-- C5 (amended): `EnqueueIn` with a serialisation that succeeds with
`payload`, `clock` being the reading taken in `EnqueueIn`, `env.now` the one
taken afterwards inside `EnqueueWithOptions`, and `clock + delay` the `float64`
sum.  The envelope has `at = clock + delay`.  If `env.now < clock + delay`, the
store receives exactly the one call
`EnqueueScheduledMessage(clock + delay, payload)`, neither `CreateQueue` nor
`EnqueueMessageNow`, and the call returns the generated id with the error of
that store call.  Otherwise the job is due: the store receives
`CreateQueue(queue)` and, exactly when that succeeds,
`EnqueueMessageNow(queue, payload)` after it, and never
`EnqueueScheduledMessage`. -/
theorem EnqueueIn_schedules {σ α P : Type} (store : Store σ P) (enc : Encoder α P)
    (clock : Float64) (env : Env) (queue cls : String) (delay : Float64) (args : α) (st : σ)
    (payload : P)
    (hser : Marshal enc (envelope env queue cls args
      { RetryCount := 0, Retry := false, At := Float64.add clock delay }) = .ok payload) :
    (envelope env queue cls args
      { RetryCount := 0, Retry := false, At := Float64.add clock delay }).At
      = Float64.add clock delay ∧
    (Float64.lt env.now (Float64.add clock delay) = true →
      EnqueueIn store.traced enc clock env queue cls delay args (st, [])
        = ((generateJid env.read,
            (store.EnqueueScheduledMessage (Float64.add clock delay) payload st).1),
           ((store.EnqueueScheduledMessage (Float64.add clock delay) payload st).2,
            [(Call.EnqueueScheduledMessage (Float64.add clock delay) payload,
              (store.EnqueueScheduledMessage (Float64.add clock delay) payload st).1)]))) ∧
    (Float64.lt env.now (Float64.add clock delay) = false →
      (∀ e, (store.CreateQueue queue st).1 = some e →
        EnqueueIn store.traced enc clock env queue cls delay args (st, [])
          = (("", some e),
             ((store.CreateQueue queue st).2, [(Call.CreateQueue queue, some e)]))) ∧
      ((store.CreateQueue queue st).1 = none →
        (EnqueueIn store.traced enc clock env queue cls delay args (st, [])).2.2
          = [(Call.CreateQueue queue, none),
             (Call.EnqueueMessageNow queue payload,
              (store.EnqueueMessageNow queue payload (store.CreateQueue queue st).2).1)])) := by
  refine ⟨rfl, ?_, ?_⟩
  · intro hlt
    exact run_scheduled store enc env queue cls args _ st [] payload hser hlt
  · intro hlt
    refine ⟨?_, ?_⟩
    · intro e hc
      exact run_create_failed store enc env queue cls args _ st [] payload hser hlt e hc
    · intro hc
      show (EnqueueWithOptions store.traced enc env queue cls args _ (st, [])).2.2 = _
      cases hn : (store.EnqueueMessageNow queue payload (store.CreateQueue queue st).2).1 with
      | some e2 =>
        rw [run_push_failed store enc env queue cls args _ st [] payload hser hlt hc e2 hn]
        rfl
      | none =>
        rw [run_pushed store enc env queue cls args _ st [] payload hser hlt hc hn]
        rfl

/-- Witness for C5 (amended): queue `default`, class `Ping`, nil arguments and
both clock readings `1700000000`.  With a delay of 3600 seconds the sum is
`1700003600` and the job is scheduled with that score; with a delay of `2⁻³⁰`
seconds the sum is `1700000000` and the job is pushed. -/
theorem EnqueueIn_schedules_witness :
    (Float64.add (Float64.finite 1700000000) (Float64.finite 3600)
        = Float64.finite 1700003600 ∧
     EnqueueIn (workingStore (Wire SampleArgs)).traced (plainEncoder SampleArgs)
        (Float64.finite 1700000000)
        { now := Float64.finite 1700000000, read := .ok sampleBytes }
        "default" "Ping" (Float64.finite 3600) none ((), [])
      = (("3fa90017c45e8801ff206bd2", none),
         ((), [(Call.EnqueueScheduledMessage (Float64.finite 1700003600)
                 [("queue", Value.str "default"), ("class", Value.str "Ping"),
                  ("args", Value.any none),
                  ("jid", Value.str "3fa90017c45e8801ff206bd2"),
                  ("enqueued_at", Value.num (Float64.finite 1700000000)),
                  ("at", Value.num (Float64.finite 1700003600))], none)]))) ∧
    (Float64.add (Float64.finite 1700000000) (Float64.finite (1 / 1073741824))
        = Float64.finite 1700000000 ∧
     (EnqueueIn (workingStore (Wire SampleArgs)).traced (plainEncoder SampleArgs)
        (Float64.finite 1700000000)
        { now := Float64.finite 1700000000, read := .ok sampleBytes }
        "default" "Ping" (Float64.finite (1 / 1073741824)) none ((), [])).2.2
      = [(Call.CreateQueue "default", none),
         (Call.EnqueueMessageNow "default"
           [("queue", Value.str "default"), ("class", Value.str "Ping"),
            ("args", Value.any none),
            ("jid", Value.str "3fa90017c45e8801ff206bd2"),
            ("enqueued_at", Value.num (Float64.finite 1700000000)),
            ("at", Value.num (Float64.finite 1700000000))], none)]) :=
  ⟨⟨by decide!,
    ((EnqueueIn_schedules (workingStore (Wire SampleArgs)) (plainEncoder SampleArgs)
        (Float64.finite 1700000000)
        { now := Float64.finite 1700000000, read := .ok sampleBytes }
        "default" "Ping" (Float64.finite 3600) none () _ rfl).2.1 (by decide!)).trans
      (by decide!)⟩,
   ⟨by decide!,
    (((EnqueueIn_schedules (workingStore (Wire SampleArgs)) (plainEncoder SampleArgs)
        (Float64.finite 1700000000)
        { now := Float64.finite 1700000000, read := .ok sampleBytes }
        "default" "Ping" (Float64.finite (1 / 1073741824)) none () _ rfl).2.2
        (by decide!)).2 (by decide!)).trans (by decide!)⟩⟩

/-- C8: `EnqueueInWithOptions` overrides only the time.  It is
`EnqueueWithOptions` on the same queue, class and arguments with options
`RetryCount`, `Retry` taken from the caller and `At = clock + delay` (the
`float64` sum, `clock` being the reading taken in `EnqueueInWithOptions`); the
`At` the caller supplied has no influence.  What is serialised is the envelope
carrying exactly these three values: when that fails the error is returned and
the store is not called; when it succeeds with `p`, the job is scheduled with
score `clock + delay` and payload `p` if `env.now < clock + delay`, and
otherwise `CreateQueue(queue)` is called and, exactly when it succeeds,
`EnqueueMessageNow(queue, p)`. -/
theorem EnqueueInWithOptions_overrides_time {σ α P : Type} (store : Store σ P)
    (enc : Encoder α P) (clock : Float64) (env : Env) (queue cls : String) (delay : Float64)
    (args : α) (opts : EnqueueOptions) (st : σ) :
    EnqueueInWithOptions store enc clock env queue cls delay args opts st
      = EnqueueWithOptions store enc env queue cls args
          { RetryCount := opts.RetryCount, Retry := opts.Retry,
            At := Float64.add clock delay } st ∧
    (∀ a : Float64,
      EnqueueInWithOptions store enc clock env queue cls delay args
          { RetryCount := opts.RetryCount, Retry := opts.Retry, At := a } st
        = EnqueueInWithOptions store enc clock env queue cls delay args opts st) ∧
    (∀ e, Marshal enc
          { RetryCount := opts.RetryCount, Retry := opts.Retry,
            At := Float64.add clock delay,
            Queue := queue, Class := cls, Args := args,
            Jid := generateJid env.read, EnqueuedAt := env.now } = .error e →
      EnqueueInWithOptions store.traced enc clock env queue cls delay args opts (st, [])
        = (("", some e), (st, []))) ∧
    (∀ p, Marshal enc
          { RetryCount := opts.RetryCount, Retry := opts.Retry,
            At := Float64.add clock delay,
            Queue := queue, Class := cls, Args := args,
            Jid := generateJid env.read, EnqueuedAt := env.now } = .ok p →
      (Float64.lt env.now (Float64.add clock delay) = true →
        EnqueueInWithOptions store.traced enc clock env queue cls delay args opts (st, [])
          = ((generateJid env.read,
              (store.EnqueueScheduledMessage (Float64.add clock delay) p st).1),
             ((store.EnqueueScheduledMessage (Float64.add clock delay) p st).2,
              [(Call.EnqueueScheduledMessage (Float64.add clock delay) p,
                (store.EnqueueScheduledMessage (Float64.add clock delay) p st).1)]))) ∧
      (Float64.lt env.now (Float64.add clock delay) = false →
        (∀ e, (store.CreateQueue queue st).1 = some e →
          EnqueueInWithOptions store.traced enc clock env queue cls delay args opts (st, [])
            = (("", some e),
               ((store.CreateQueue queue st).2, [(Call.CreateQueue queue, some e)]))) ∧
        ((store.CreateQueue queue st).1 = none →
          (EnqueueInWithOptions store.traced enc clock env queue cls delay args opts
              (st, [])).2.2
            = [(Call.CreateQueue queue, none),
               (Call.EnqueueMessageNow queue p,
                (store.EnqueueMessageNow queue p (store.CreateQueue queue st).2).1)]))) := by
  refine ⟨rfl, fun _ => rfl, ?_, ?_⟩
  · intro e hser
    exact run_marshal_error store enc env queue cls args
      { RetryCount := opts.RetryCount, Retry := opts.Retry, At := Float64.add clock delay }
      st [] e hser
  · intro p hser
    have hser2 : Marshal enc (envelope env queue cls args
        { RetryCount := opts.RetryCount, Retry := opts.Retry,
          At := Float64.add clock delay }) = .ok p := hser
    refine ⟨?_, ?_⟩
    · intro hlt
      exact run_scheduled store enc env queue cls args _ st [] p hser2 hlt
    · intro hlt
      refine ⟨?_, ?_⟩
      · intro e hc
        exact run_create_failed store enc env queue cls args _ st [] p hser2 hlt e hc
      · intro hc
        show (EnqueueWithOptions store.traced enc env queue cls args
          { RetryCount := opts.RetryCount, Retry := opts.Retry,
            At := Float64.add clock delay } (st, [])).2.2 = _
        cases hn : (store.EnqueueMessageNow queue p (store.CreateQueue queue st).2).1 with
        | some e2 =>
          rw [run_push_failed store enc env queue cls args _ st [] p hser2 hlt hc e2 hn]
          rfl
        | none =>
          rw [run_pushed store enc env queue cls args _ st [] p hser2 hlt hc hn]
          rfl

/-- Witness for C8: with options `{RetryCount: 3, Retry: true, At: 5}`, clock
reading `1700000000` and a delay of 3600 seconds, the job is scheduled with
score `1700003600`, the payload carries `retry_count` 3, `retry` true and
`at` 1700003600, and the `At` of 5 is gone. -/
theorem EnqueueInWithOptions_overrides_time_witness :
    EnqueueInWithOptions (workingStore (Wire SampleArgs)).traced (plainEncoder SampleArgs)
        (Float64.finite 1700000000)
        { now := Float64.finite 1700000000, read := .ok sampleBytes }
        "default" "Ping" (Float64.finite 3600) none
        { RetryCount := 3, Retry := true, At := Float64.finite 5 } ((), [])
      = (("3fa90017c45e8801ff206bd2", none),
         ((), [(Call.EnqueueScheduledMessage (Float64.finite 1700003600)
                 [("queue", Value.str "default"), ("class", Value.str "Ping"),
                  ("args", Value.any none),
                  ("jid", Value.str "3fa90017c45e8801ff206bd2"),
                  ("enqueued_at", Value.num (Float64.finite 1700000000)),
                  ("retry_count", Value.int 3), ("retry", Value.bool true),
                  ("at", Value.num (Float64.finite 1700003600))], none)])) :=
  ((EnqueueInWithOptions_overrides_time (workingStore (Wire SampleArgs)).traced
      (plainEncoder SampleArgs) (Float64.finite 1700000000)
      { now := Float64.finite 1700000000, read := .ok sampleBytes }
      "default" "Ping" (Float64.finite 3600) none
      { RetryCount := 3, Retry := true, At := Float64.finite 5 } ((), [])).1).trans
    (by decide!)

/-- C10: evaluation of the code on the scheduled path with a failing store.
`EnqueueScheduledMessage` fails with `connection refused`, and
`EnqueueWithOptions` returns that error together with the generated, non-empty
identifier. -/
theorem EnqueueWithOptions_scheduled_failure :
    EnqueueWithOptions
        (fixedStore (Wire SampleArgs) none none (some "connection refused")).traced
        (plainEncoder SampleArgs)
        { now := Float64.finite 1700000000, read := .ok sampleBytes }
        "default" "Ping" none
        { RetryCount := 0, Retry := false, At := Float64.finite 1700003600 } ((), [])
      = (("3fa90017c45e8801ff206bd2", some "connection refused"),
         ((), [(Call.EnqueueScheduledMessage (Float64.finite 1700003600)
                 [("queue", Value.str "default"), ("class", Value.str "Ping"),
                  ("args", Value.any none),
                  ("jid", Value.str "3fa90017c45e8801ff206bd2"),
                  ("enqueued_at", Value.num (Float64.finite 1700000000)),
                  ("at", Value.num (Float64.finite 1700003600))],
                some "connection refused")])) := by
  have hj : generateJid (.ok sampleBytes) = "3fa90017c45e8801ff206bd2" := by decide
  simp [EnqueueWithOptions, Marshal, plainEncoder, envelope, fields, hj,
    Float64.lt, Float64.isZero, Store.traced, fixedStore]
  norm_num

end Workers
